import Mathlib

/-!
Shallow embedding of `dcosctl.py` (praekeltfoundation/dcosctl-drain).

The program is a CLI talking to a Mesos maintenance REST API.  Its
schedule-editing logic is pure list manipulation over a small JSON
document; we embed the JSON shapes as typed structures and the
effectful operations (`cordon`, `uncordon`, `drain`, `up`) as pure
functions from the fetched server state to the trace of HTTP requests
they issue together with the `ScheduleError` they raise, if any.
Python floats (the `--duration` option and `time.time()`) are embedded
as exact rationals; `time.time()` is passed in as the `now` parameter.
-/

namespace Dcosctl

/-- `{"hostname": ..., "ip": ...}` machine identifier; Python dict
equality is field-wise equality. -/
structure MachineID where
  hostname : String
  ip : String
deriving DecidableEq, Repr

/-- `{"nanoseconds": n}` as produced by `_ns_time`. -/
structure NsTime where
  nanoseconds : Int
deriving DecidableEq, Repr

/-- The `unavailability` object of a maintenance window. -/
structure Unavailability where
  start : NsTime
  duration : NsTime
deriving DecidableEq, Repr

/-- One maintenance window: `{"machine_ids": [...], "unavailability": {...}}`. -/
structure MaintenanceWindow where
  machine_ids : List MachineID
  unavailability : Unavailability
deriving DecidableEq, Repr

/-- The whole schedule document: `{"windows": [...]}` (a missing or
null `windows` key behaves like `[]` in both `cordon` and `uncordon`,
so it is embedded as the empty list). -/
structure MaintenanceSchedule where
  windows : List MaintenanceWindow
deriving DecidableEq, Repr

/-- The `ScheduleError` exceptions raised by `cordon`/`uncordon`,
distinguished by their message. -/
inductive ScheduleError where
  | alreadyDraining
  | alreadyScheduled
  | noWindows
  | notFound
deriving DecidableEq, Repr

/-- HTTP method of a request issued through `_request`. -/
inductive Method where
  | GET
  | POST
deriving DecidableEq, Repr

/-- JSON body attached to a request (`json=` keyword argument). -/
inductive Body where
  | empty
  | schedule (s : MaintenanceSchedule)
  | machines (ms : List MachineID)
deriving DecidableEq, Repr

/-- One HTTP request issued by the client: method, path relative to
the Mesos URL, and body. -/
structure Request where
  method : Method
  path : String
  body : Body
deriving DecidableEq, Repr

/-- The remote state the operations read: the draining-machine ids
reported by `GET maintenance/status` and the schedule returned by
`GET maintenance/schedule`. -/
structure ServerState where
  draining_machines : List MachineID
  schedule : MaintenanceSchedule
deriving DecidableEq, Repr

/-- Python `int()` on an exact rational: truncation toward zero. -/
def pyInt (q : ℚ) : Int :=
  Int.sign q.num * ((q.num.natAbs / q.den : Nat) : Int)

/-- `_ns_time(seconds)` = `{"nanoseconds": int(seconds * 10**9)}`. -/
def ns_time (seconds : ℚ) : NsTime :=
  ⟨pyInt (seconds * 10 ^ 9)⟩

/-- `_is_draining`: membership of `machine_id` among the ids of
`status["draining_machines"]`. -/
def is_draining (st : ServerState) (machine_id : MachineID) : Bool :=
  st.draining_machines.any (fun m => decide (m = machine_id))

/-- The loop in `cordon` that raises when `machine_id in
window["machine_ids"]` for some window. -/
def machineScheduled (s : MaintenanceSchedule) (machine_id : MachineID) : Bool :=
  s.windows.any (fun w => decide (machine_id ∈ w.machine_ids))

/-- The window `cordon` appends:
`{"machine_ids": [machine_id], "unavailability": {"duration": _ns_time(duration), "start": _ns_time(time.time())}}`. -/
def newWindow (machine_id : MachineID) (duration now : ℚ) : MaintenanceWindow :=
  { machine_ids := [machine_id]
    unavailability := { start := ns_time now, duration := ns_time duration } }

/-- `GET maintenance/status` as issued by `_is_draining`. -/
def statusReq : Request :=
  ⟨Method.GET, "maintenance/status", Body.empty⟩

/-- `GET maintenance/schedule`. -/
def schedGetReq : Request :=
  ⟨Method.GET, "maintenance/schedule", Body.empty⟩

/-- `POST maintenance/schedule` with a schedule document body. -/
def schedPostReq (s : MaintenanceSchedule) : Request :=
  ⟨Method.POST, "maintenance/schedule", Body.schedule s⟩

/-- `cordon(mesos_url, machine_id, duration)`: gives the trace of HTTP
requests issued and the `ScheduleError` raised, if any.  `now` stands
for `time.time()` observed inside the call. -/
def cordon (st : ServerState) (machine_id : MachineID) (duration now : ℚ) :
    List Request × Option ScheduleError :=
  if is_draining st machine_id then
    ([statusReq], some ScheduleError.alreadyDraining)
  else if machineScheduled st.schedule machine_id then
    ([statusReq, schedGetReq], some ScheduleError.alreadyScheduled)
  else
    ([statusReq, schedGetReq,
      schedPostReq ⟨st.schedule.windows ++ [newWindow machine_id duration now]⟩],
     none)

/-- `new_machine_ids = [mid for mid in machine_ids if mid != machine_id]`,
packaged per window (`new_window = dict(window); new_window["machine_ids"] = new_machine_ids`). -/
def removeMachine (w : MaintenanceWindow) (machine_id : MachineID) : MaintenanceWindow :=
  { w with machine_ids := w.machine_ids.filter (fun mid => decide (mid ≠ machine_id)) }

/-- The `new_windows` list built by `uncordon`'s loop: every window
with `machine_id` filtered out, keeping only windows with at least one
remaining machine id. -/
def uncordonWindows (windows : List MaintenanceWindow) (machine_id : MachineID) :
    List MaintenanceWindow :=
  (windows.map (fun w => removeMachine w machine_id)).filter
    (fun w => !w.machine_ids.isEmpty)

/-- The `scheduled` flag of `uncordon`'s loop: true when
`new_machine_ids != machine_ids` for some window. -/
def uncordonScheduled (windows : List MaintenanceWindow) (machine_id : MachineID) : Bool :=
  windows.any (fun w =>
    decide (w.machine_ids.filter (fun mid => decide (mid ≠ machine_id)) ≠ w.machine_ids))

/-- `uncordon(mesos_url, machine_id)`: request trace and raised
`ScheduleError`, if any.  The draining check only logs a warning, but
its `GET maintenance/status` is part of the trace. -/
def uncordon (st : ServerState) (machine_id : MachineID) :
    List Request × Option ScheduleError :=
  if st.schedule.windows.isEmpty then
    ([statusReq, schedGetReq], some ScheduleError.noWindows)
  else if uncordonScheduled st.schedule.windows machine_id then
    ([statusReq, schedGetReq,
      schedPostReq ⟨uncordonWindows st.schedule.windows machine_id⟩],
     none)
  else
    ([statusReq, schedGetReq], some ScheduleError.notFound)

/-- `drain(mesos_url, machine_id)`: its request trace. -/
def drain (machine_id : MachineID) : List Request :=
  [⟨Method.POST, "machine/down", Body.machines [machine_id]⟩]

/-- `up(mesos_url, machine_id)`: its request trace. -/
def up (machine_id : MachineID) : List Request :=
  [⟨Method.POST, "machine/up", Body.machines [machine_id]⟩]

/-- `main`'s construction of the machine id from the CLI arguments:
`hostname = args.hostname if args.hostname else args.ip`;
`machine_id = {"ip": args.ip, "hostname": hostname}` (a missing or
empty `--hostname` falls back to the `ip` argument). -/
def mkMachineID (ip : String) (hostname : Option String) : MachineID :=
  { hostname :=
      match hostname with
      | some h => if h.isEmpty then ip else h
      | none => ip
    ip := ip }

/-- The schedule documents POSTed to `maintenance/schedule` within a
request trace. -/
def schedulePosts (reqs : List Request) : List MaintenanceSchedule :=
  reqs.filterMap fun r =>
    match r with
    | ⟨Method.POST, path, Body.schedule s⟩ =>
        if path = "maintenance/schedule" then some s else none
    | _ => none

/-- Outcome of one HTTP attempt as seen by `_request`. -/
inductive HttpOutcome where
  | connectionFailure
  | response (status : Nat) (body : Body)
deriving DecidableEq, Repr

/-- Failures surfaced by `_request`: a `requests` connection error or
the `HTTPError` raised by `raise_for_status`. -/
inductive TransportError where
  | connectionError
  | httpError (status : Nat)
deriving DecidableEq, Repr

/-- `requests.Response.raise_for_status` raises `HTTPError` exactly
when `400 <= status_code < 600`. -/
def raiseForStatus (status : Nat) : Bool :=
  decide (400 ≤ status) && decide (status < 600)

/-- `_request(method, mesos_url, path, **kwargs)`: a single attempt
(no retry); propagates a connection failure, calls
`raise_for_status()` on the response, otherwise returns it. -/
def request' (outcome : HttpOutcome) : Except TransportError Body :=
  match outcome with
  | HttpOutcome.connectionFailure => Except.error TransportError.connectionError
  | HttpOutcome.response status body =>
      if raiseForStatus status then Except.error (TransportError.httpError status)
      else Except.ok body

/-- "A MachineID appears in at most one window's `machine_ids`". -/
def atMostOnce (s : MaintenanceSchedule) : Prop :=
  ∀ m : MachineID, s.windows.countP (fun w => decide (m ∈ w.machine_ids)) ≤ 1

/-- `{"hostname": "host1", "ip": "host1"}`, used in concrete examples. -/
def host1 : MachineID := ⟨"host1", "host1"⟩

/-- A second machine id for concrete examples. -/
def host2 : MachineID := ⟨"host2", "host2"⟩

/-- A fixed unavailability object for concrete examples. -/
def u0 : Unavailability := ⟨⟨0⟩, ⟨100⟩⟩

/-- A window with an empty `machine_ids` list, for concrete examples. -/
def emptyWindow : MaintenanceWindow := ⟨[], u0⟩

/-! ## Helper lemmas -/

theorem filter_ne_of_not_mem (l : List MachineID) (m : MachineID) (h : m ∉ l) :
    l.filter (fun mid => decide (mid ≠ m)) = l := by
  rw [List.filter_eq_self]
  intro a ha
  simp only [decide_eq_true_eq]
  exact fun e => h (e ▸ ha)

theorem uncordonScheduled_eq (ws : List MaintenanceWindow) (m : MachineID) :
    uncordonScheduled ws m = machineScheduled ⟨ws⟩ m := by
  rw [Bool.eq_iff_iff]
  simp only [uncordonScheduled, machineScheduled, List.any_eq_true, decide_eq_true_eq]
  constructor
  · rintro ⟨w, hw, h⟩
    refine ⟨w, hw, ?_⟩
    by_contra hm
    exact h (filter_ne_of_not_mem _ _ hm)
  · rintro ⟨w, hw, hm⟩
    refine ⟨w, hw, fun heq => ?_⟩
    have := (List.filter_eq_self.mp heq) m hm
    simp at this

theorem machineScheduled_iff (s : MaintenanceSchedule) (m : MachineID) :
    machineScheduled s m = true ↔ ∃ w ∈ s.windows, m ∈ w.machine_ids := by
  simp [machineScheduled]

theorem machineScheduled_false_iff (s : MaintenanceSchedule) (m : MachineID) :
    machineScheduled s m = false ↔ ∀ w ∈ s.windows, m ∉ w.machine_ids := by
  simp [machineScheduled]

theorem schedulePosts_no_post :
    schedulePosts [statusReq, schedGetReq] = [] := rfl

theorem schedulePosts_status_only :
    schedulePosts [statusReq] = [] := rfl

theorem schedulePosts_one_post (s : MaintenanceSchedule) :
    schedulePosts [statusReq, schedGetReq, schedPostReq s] = [s] := rfl

theorem mem_uncordonWindows (ws : List MaintenanceWindow) (m : MachineID)
    (w : MaintenanceWindow) (hw : w ∈ uncordonWindows ws m) :
    m ∉ w.machine_ids ∧ w.machine_ids ≠ [] := by
  simp only [uncordonWindows, List.mem_filter, List.mem_map] at hw
  obtain ⟨⟨w', _, hw'⟩, hne⟩ := hw
  constructor
  · intro hm
    subst hw'
    simp only [removeMachine, List.mem_filter, decide_eq_true_eq] at hm
    exact hm.2 rfl
  · simpa using hne

theorem uncordonWindows_append_new (ws : List MaintenanceWindow) (m : MachineID)
    (u : Unavailability)
    (h1 : ∀ w ∈ ws, m ∉ w.machine_ids)
    (h2 : ∀ w ∈ ws, w.machine_ids ≠ []) :
    uncordonWindows (ws ++ [⟨[m], u⟩]) m = ws := by
  simp only [uncordonWindows, List.map_append, List.filter_append]
  have e1 : ws.map (fun w => removeMachine w m) = ws := by
    have h' : ∀ w ∈ ws, (fun w => removeMachine w m) w = id w := by
      intro w hw
      simp only [id, removeMachine]
      rw [filter_ne_of_not_mem _ _ (h1 w hw)]
    exact (List.map_congr_left h').trans (List.map_id ws)
  have e2 : ([⟨[m], u⟩] : List MaintenanceWindow).map (fun w => removeMachine w m) =
      [⟨[], u⟩] := by
    simp [removeMachine]
  rw [e1, e2]
  have e3 : ws.filter (fun w => !w.machine_ids.isEmpty) = ws := by
    rw [List.filter_eq_self]
    intro w hw
    simpa using h2 w hw
  rw [e3]
  simp

/-! ## Claim theorems -/

/-- Claim C1: for every schedule and machine identifier not already
scheduled or draining, `cordon` produces the input schedule with
exactly one new window appended, whose `machine_ids` list contains
exactly the given machine and whose unavailability has `start = now`
and `duration = duration`, both encoded as integer nanoseconds; no
existing window is modified, and the result is POSTed back. -/
theorem cordon_appends_window (st : ServerState) (m : MachineID) (d now : ℚ)
    (hd : is_draining st m = false)
    (hs : machineScheduled st.schedule m = false) :
    cordon st m d now =
      ([statusReq, schedGetReq,
        schedPostReq ⟨st.schedule.windows ++
          [{ machine_ids := [m]
             unavailability := { start := ns_time now, duration := ns_time d } }]⟩],
       none) := by
  simp [cordon, hd, hs, newWindow]

/-- Witness for C1 at the spec's example: the empty schedule, machine
`host1`, duration 3600 s, now = 7 s; the appended window carries
3600000000000 ns duration and 7000000000 ns start. -/
theorem cordon_appends_window_example :
    cordon ⟨[], ⟨[]⟩⟩ host1 3600 7 =
      ([statusReq, schedGetReq,
        schedPostReq ⟨[⟨[host1], ⟨⟨7000000000⟩, ⟨3600000000000⟩⟩⟩]⟩],
       none) := by
  rw [cordon_appends_window ⟨[], ⟨[]⟩⟩ host1 3600 7 rfl rfl]
  have e1 : ns_time 3600 = ⟨3600000000000⟩ := by
    norm_num [ns_time, pyInt]
    decide
  have e2 : ns_time 7 = ⟨7000000000⟩ := by
    norm_num [ns_time, pyInt]
    decide
  rw [e1, e2]
  simp

/-- Claim C2: whenever the machine appears in some window, `uncordon`
removes it from every window, drops windows left empty, and posts the
resulting schedule; when the machine appears in no window, `uncordon`
raises a `ScheduleError` and posts nothing. -/
theorem uncordon_removes_all (st : ServerState) (m : MachineID) :
    (machineScheduled st.schedule m = true →
      uncordon st m =
        ([statusReq, schedGetReq,
          schedPostReq ⟨uncordonWindows st.schedule.windows m⟩], none) ∧
      ∀ w ∈ uncordonWindows st.schedule.windows m,
        m ∉ w.machine_ids ∧ w.machine_ids ≠ []) ∧
    (machineScheduled st.schedule m = false →
      (uncordon st m).2.isSome = true ∧ schedulePosts (uncordon st m).1 = []) := by
  constructor
  · intro hm
    have hne : st.schedule.windows.isEmpty = false := by
      obtain ⟨w, hw, _⟩ := (machineScheduled_iff _ _).mp hm
      rw [List.isEmpty_eq_false]
      intro h
      rw [h] at hw
      exact absurd hw (List.not_mem_nil w)
    have hsch : uncordonScheduled st.schedule.windows m = true := by
      rw [uncordonScheduled_eq]
      exact hm
    refine ⟨?_, fun w hw => mem_uncordonWindows _ _ w hw⟩
    simp [uncordon, hne, hsch]
  · intro hm
    cases hne : st.schedule.windows.isEmpty with
    | true => simp [uncordon, hne, schedulePosts_no_post]
    | false =>
        have hsch : uncordonScheduled st.schedule.windows m = false := by
          rw [uncordonScheduled_eq]
          exact hm
        simp [uncordon, hne, hsch, schedulePosts_no_post]

/-- Claim C3: `cordon` raises a `ScheduleError` exactly when the
machine is already draining or already appears in some window of the
fetched schedule; otherwise it succeeds and its trace POSTs the
schedule with the new window appended. -/
theorem cordon_conflict_characterization (st : ServerState) (m : MachineID)
    (d now : ℚ) :
    ((cordon st m d now).2.isSome = true ↔
      (is_draining st m = true ∨ machineScheduled st.schedule m = true)) ∧
    ((cordon st m d now).2 = none →
      (cordon st m d now).1 =
        [statusReq, schedGetReq,
         schedPostReq ⟨st.schedule.windows ++ [newWindow m d now]⟩]) := by
  cases hd : is_draining st m with
  | true => simp [cordon, hd]
  | false =>
      cases hs : machineScheduled st.schedule m with
      | true => simp [cordon, hd, hs]
      | false => simp [cordon, hd, hs]

/-- Claim C4: starting from a schedule in which the machine appears in
no window and no window is empty, every schedule posted by `cordon`
of that machine, when fetched back and given to `uncordon` of the
same machine, makes `uncordon` post exactly the original schedule
(round-trip on the window list). -/
theorem cordon_uncordon_roundtrip (st : ServerState) (m : MachineID) (d now : ℚ)
    (h1 : machineScheduled st.schedule m = false)
    (h2 : ∀ w ∈ st.schedule.windows, w.machine_ids ≠ []) :
    ∀ s1 ∈ schedulePosts (cordon st m d now).1,
      schedulePosts (uncordon { st with schedule := s1 } m).1 = [st.schedule] := by
  intro s1 hs1
  cases hd : is_draining st m with
  | true =>
      rw [cordon] at hs1
      rw [hd] at hs1
      simp only [if_true, schedulePosts_status_only] at hs1
      exact absurd hs1 (List.not_mem_nil s1)
  | false =>
      rw [cordon] at hs1
      rw [hd, h1] at hs1
      simp only [Bool.false_eq_true, if_false, schedulePosts_one_post,
        List.mem_singleton] at hs1
      subst hs1
      have hmem : ∀ w ∈ st.schedule.windows, m ∉ w.machine_ids :=
        (machineScheduled_false_iff _ _).mp h1
      have hne : (st.schedule.windows ++ [newWindow m d now]).isEmpty = false := by
        simp
      have hsch :
          uncordonScheduled (st.schedule.windows ++ [newWindow m d now]) m = true := by
        rw [uncordonScheduled_eq, machineScheduled_iff]
        exact ⟨newWindow m d now, by simp, by simp [newWindow]⟩
      rw [uncordon]
      simp only [hne, hsch, Bool.false_eq_true, if_false, if_true]
      rw [schedulePosts_one_post]
      rw [show uncordonWindows (st.schedule.windows ++ [newWindow m d now]) m
            = st.schedule.windows from
          uncordonWindows_append_new st.schedule.windows m _ hmem h2]

/-- Witness for C4: schedule with one window holding `host2`; cordon
`host1` then uncordon `host1` posts back exactly the original window
list. -/
theorem cordon_uncordon_roundtrip_example :
    schedulePosts
        (uncordon ⟨[], ⟨[⟨[host2], u0⟩] ++ [newWindow host1 3600 0]⟩⟩ host1).1 =
      [⟨[⟨[host2], u0⟩]⟩] := by
  have h := cordon_uncordon_roundtrip ⟨[], ⟨[⟨[host2], u0⟩]⟩⟩ host1 3600 0
    (by decide) (by decide)
  exact h ⟨[⟨[host2], u0⟩] ++ [newWindow host1 3600 0]⟩ (List.Mem.head _)

/-- Counterexample to claim C5: a schedule fetched with a pre-existing
empty window is posted back by `cordon` with that empty window still
present — `cordon` does not prune empty windows. -/
theorem cordon_posts_empty_window :
    ∃ s ∈ schedulePosts (cordon ⟨[], ⟨[emptyWindow]⟩⟩ host1 3600 0).1,
      emptyWindow ∈ s.windows ∧ emptyWindow.machine_ids = [] := by
  refine ⟨⟨[emptyWindow] ++ [newWindow host1 3600 0]⟩, List.Mem.head _, ?_, rfl⟩
  simp

/-- Claim C5 as amended: every schedule posted by `uncordon` contains
no window with an empty `machine_ids` list; `cordon` posts the fetched
windows unchanged plus one appended window containing the machine, so
it introduces no new empty window but does not prune pre-existing
empty ones. -/
theorem posted_windows_pruning (st : ServerState) (m : MachineID) (d now : ℚ) :
    (∀ s ∈ schedulePosts (uncordon st m).1, ∀ w ∈ s.windows, w.machine_ids ≠ []) ∧
    (∀ s ∈ schedulePosts (cordon st m d now).1,
      s.windows = st.schedule.windows ++ [newWindow m d now]) ∧
    (newWindow m d now).machine_ids ≠ [] := by
  refine ⟨?_, ?_, by simp [newWindow]⟩
  · intro s hs w hw
    rw [uncordon] at hs
    cases hne : st.schedule.windows.isEmpty with
    | true =>
        rw [hne] at hs
        simp only [if_true, schedulePosts_no_post] at hs
        exact absurd hs (List.not_mem_nil s)
    | false =>
        rw [hne] at hs
        cases hsch : uncordonScheduled st.schedule.windows m with
        | false =>
            rw [hsch] at hs
            simp only [Bool.false_eq_true, if_false, schedulePosts_no_post] at hs
            exact absurd hs (List.not_mem_nil s)
        | true =>
            rw [hsch] at hs
            simp only [Bool.false_eq_true, if_false, if_true,
              schedulePosts_one_post, List.mem_singleton] at hs
            subst hs
            exact (mem_uncordonWindows _ _ w hw).2
  · intro s hs
    rw [cordon] at hs
    cases hd : is_draining st m with
    | true =>
        rw [hd] at hs
        simp only [if_true, schedulePosts_status_only] at hs
        exact absurd hs (List.not_mem_nil s)
    | false =>
        rw [hd] at hs
        cases hsch : machineScheduled st.schedule m with
        | true =>
            rw [hsch] at hs
            simp only [Bool.false_eq_true, if_false, if_true,
              schedulePosts_no_post] at hs
            exact absurd hs (List.not_mem_nil s)
        | false =>
            rw [hsch] at hs
            simp only [Bool.false_eq_true, if_false, schedulePosts_one_post,
              List.mem_singleton] at hs
            subst hs
            rfl

/-- Claim C6: `drain` issues exactly one POST, to `machine/down`, with
the one-element body `[machine]`; `up` issues exactly one POST to
`machine/up` with body `[machine]`; neither trace touches the
maintenance schedule or status; with the CLI argument `host1` and no
hostname override the machine id is `{hostname: host1, ip: host1}`. -/
theorem drain_up_direct (m : MachineID) :
    drain m = [⟨Method.POST, "machine/down", Body.machines [m]⟩] ∧
    up m = [⟨Method.POST, "machine/up", Body.machines [m]⟩] ∧
    (∀ r ∈ drain m,
      r.path ≠ "maintenance/schedule" ∧ r.path ≠ "maintenance/status") ∧
    (∀ r ∈ up m,
      r.path ≠ "maintenance/schedule" ∧ r.path ≠ "maintenance/status") ∧
    drain (mkMachineID "host1" none) =
      [⟨Method.POST, "machine/down", Body.machines [⟨"host1", "host1"⟩]⟩] := by
  refine ⟨rfl, rfl, ?_, ?_, rfl⟩
  · intro r hr
    rw [drain, List.mem_singleton] at hr
    subst hr
    refine ⟨?_, ?_⟩
    · show ("machine/down" : String) ≠ "maintenance/schedule"
      decide
    · show ("machine/down" : String) ≠ "maintenance/status"
      decide
  · intro r hr
    rw [up, List.mem_singleton] at hr
    subst hr
    refine ⟨?_, ?_⟩
    · show ("machine/up" : String) ≠ "maintenance/schedule"
      decide
    · show ("machine/up" : String) ≠ "maintenance/status"
      decide

/-- Counterexample to claim C7: status 304 is not in the 2xx range,
yet `_request` does not fail — `raise_for_status` only raises for
4xx/5xx statuses. -/
theorem request_not_2xx_ok :
    ¬ (200 ≤ 304 ∧ 304 < 300) ∧
    request' (HttpOutcome.response 304 Body.empty) = Except.ok Body.empty := by
  exact ⟨by decide, rfl⟩

/-- Claim C7 as amended: a single-attempt `_request` fails with a
transport error exactly when the connection fails or the HTTP status
is in `[400, 600)` (4xx/5xx); every 2xx response — and any other
response whose status is outside `[400, 600)` — returns the decoded
body without error. -/
theorem request_failure_characterization (status : Nat) (body : Body) :
    (request' (HttpOutcome.response status body) = Except.ok body ↔
      ¬ (400 ≤ status ∧ status < 600)) ∧
    (400 ≤ status ∧ status < 600 →
      request' (HttpOutcome.response status body) =
        Except.error (TransportError.httpError status)) ∧
    (200 ≤ status ∧ status < 300 →
      request' (HttpOutcome.response status body) = Except.ok body) ∧
    request' HttpOutcome.connectionFailure =
      Except.error TransportError.connectionError := by
  by_cases h : 400 ≤ status ∧ status < 600
  · have hb : raiseForStatus status = true := by
      simp [raiseForStatus, h.1, h.2]
    refine ⟨?_, fun _ => ?_, fun h2 => absurd h.1 (by omega), rfl⟩
    · simp [request', hb, h]
    · simp [request', hb]
  · have hb : raiseForStatus status = false := by
      simp only [raiseForStatus, Bool.and_eq_false_iff, decide_eq_false_iff_not]
      omega
    refine ⟨?_, fun h2 => absurd h2 h, fun _ => ?_, rfl⟩
    · simp [request', hb, h]
    · simp [request', hb]

/-- Claim C8: if every machine appears in at most one window of the
fetched schedule, the same holds of every schedule posted back by
`cordon` and by `uncordon`. -/
theorem atMostOnce_preserved (st : ServerState) (m : MachineID) (d now : ℚ)
    (h : atMostOnce st.schedule) :
    (∀ s ∈ schedulePosts (cordon st m d now).1, atMostOnce s) ∧
    (∀ s ∈ schedulePosts (uncordon st m).1, atMostOnce s) := by
  constructor
  · intro s hs
    rw [cordon] at hs
    cases hd : is_draining st m with
    | true =>
        rw [hd] at hs
        simp only [if_true, schedulePosts_status_only] at hs
        exact absurd hs (List.not_mem_nil s)
    | false =>
        rw [hd] at hs
        cases hsch : machineScheduled st.schedule m with
        | true =>
            rw [hsch] at hs
            simp only [Bool.false_eq_true, if_false, if_true,
              schedulePosts_no_post] at hs
            exact absurd hs (List.not_mem_nil s)
        | false =>
            rw [hsch] at hs
            simp only [Bool.false_eq_true, if_false, schedulePosts_one_post,
              List.mem_singleton] at hs
            subst hs
            intro m'
            simp only [List.countP_append]
            by_cases hm : m' = m
            · subst hm
              have hz : st.schedule.windows.countP
                  (fun w => decide (m' ∈ w.machine_ids)) = 0 := by
                rw [List.countP_eq_zero]
                intro w hw
                simpa using (machineScheduled_false_iff _ _).mp hsch w hw
              rw [hz]
              simpa using List.countP_le_length _
            · have hz : ([newWindow m d now].countP
                  (fun w => decide (m' ∈ w.machine_ids))) = 0 := by
                rw [List.countP_eq_zero]
                intro w hw
                rw [List.mem_singleton] at hw
                subst hw
                simp [newWindow, hm]
              rw [hz]
              simpa using h m'
  · intro s hs
    rw [uncordon] at hs
    cases hne : st.schedule.windows.isEmpty with
    | true =>
        rw [hne] at hs
        simp only [if_true, schedulePosts_no_post] at hs
        exact absurd hs (List.not_mem_nil s)
    | false =>
        rw [hne] at hs
        cases hsch : uncordonScheduled st.schedule.windows m with
        | false =>
            rw [hsch] at hs
            simp only [Bool.false_eq_true, if_false, schedulePosts_no_post] at hs
            exact absurd hs (List.not_mem_nil s)
        | true =>
            rw [hsch] at hs
            simp only [Bool.false_eq_true, if_false, if_true,
              schedulePosts_one_post, List.mem_singleton] at hs
            subst hs
            intro m'
            calc (uncordonWindows st.schedule.windows m).countP
                  (fun w => decide (m' ∈ w.machine_ids))
                ≤ st.schedule.windows.countP
                  (fun w => decide (m' ∈ w.machine_ids)) := by
                  rw [uncordonWindows, List.countP_filter, List.countP_map]
                  apply List.countP_mono_left
                  intro w hw hp
                  simp only [Function.comp, Bool.and_eq_true, decide_eq_true_eq,
                    removeMachine, List.mem_filter] at hp
                  simpa using hp.1.1
              _ ≤ 1 := h m'

/-- Witness for C8: the invariant holds of the one-window schedule
`[[host2]]` and is preserved by cordoning `host1` there. -/
theorem atMostOnce_preserved_example :
    atMostOnce ⟨[⟨[host2], u0⟩]⟩ ∧
    ∀ s ∈ schedulePosts (cordon ⟨[], ⟨[⟨[host2], u0⟩]⟩⟩ host1 3600 0).1,
      atMostOnce s := by
  have hinv : atMostOnce ⟨[⟨[host2], u0⟩]⟩ := by
    intro m'
    exact le_trans (List.countP_le_length _) (by decide)
  exact ⟨hinv, (atMostOnce_preserved ⟨[], ⟨[⟨[host2], u0⟩]⟩⟩ host1 3600 0 hinv).1⟩

/-- Counterexample to claim C9: the CLI accepts `--duration -1`
(any float), and `_ns_time(-1)` transmits the negative value
-1000000000 nanoseconds. -/
theorem ns_time_negative_duration :
    ns_time (-1) = ⟨-1000000000⟩ ∧ (ns_time (-1)).nanoseconds < 0 := by
  have e : ns_time (-1) = ⟨-1000000000⟩ := by
    norm_num [ns_time, pyInt]
    decide
  exact ⟨e, by rw [e]; decide⟩

/-- Claim C9 as amended: every transmitted time value is an integer
number of nanoseconds by construction, and the transmitted duration is
non-negative whenever the supplied duration is non-negative; a
negative CLI duration is transmitted as negative nanoseconds. -/
theorem ns_time_nonneg_of_nonneg (q : ℚ) (h : 0 ≤ q) :
    0 ≤ (ns_time q).nanoseconds := by
  simp only [ns_time, pyInt]
  apply mul_nonneg
  · rw [Int.sign_nonneg, Rat.num_nonneg]
    exact mul_nonneg h (by norm_num)
  · exact Int.natCast_nonneg _

/-- Witness for C9's amended theorem at the default duration 3600 s. -/
theorem ns_time_nonneg_example :
    (0 : ℚ) ≤ 3600 ∧ 0 ≤ (ns_time 3600).nanoseconds :=
  ⟨by norm_num, ns_time_nonneg_of_nonneg 3600 (by norm_num)⟩

/-- Claim C10: whenever `cordon` or `uncordon` raises a
`ScheduleError`, its request trace contains no POST to
`maintenance/schedule`, so the remote schedule is left unchanged. -/
theorem schedule_error_no_post (st : ServerState) (m : MachineID) (d now : ℚ) :
    ((cordon st m d now).2.isSome = true →
      schedulePosts (cordon st m d now).1 = []) ∧
    ((uncordon st m).2.isSome = true →
      schedulePosts (uncordon st m).1 = []) := by
  constructor
  · intro herr
    rw [cordon] at herr ⊢
    cases hd : is_draining st m with
    | true => simp [schedulePosts_status_only]
    | false =>
        rw [hd] at herr
        cases hsch : machineScheduled st.schedule m with
        | true => simp [schedulePosts_no_post]
        | false =>
            rw [hsch] at herr
            simp at herr
  · intro herr
    rw [uncordon] at herr ⊢
    cases hne : st.schedule.windows.isEmpty with
    | true => simp [schedulePosts_no_post]
    | false =>
        rw [hne] at herr
        cases hsch : uncordonScheduled st.schedule.windows m with
        | true =>
            rw [hsch] at herr
            simp at herr
        | false => simp [schedulePosts_no_post]

/-- Witness for C10: `uncordon` on the empty schedule raises and its
trace contains no schedule POST. -/
theorem schedule_error_no_post_example :
    (uncordon ⟨[], ⟨[]⟩⟩ host1).2.isSome = true ∧
    schedulePosts (uncordon ⟨[], ⟨[]⟩⟩ host1).1 = [] :=
  ⟨by decide, (schedule_error_no_post ⟨[], ⟨[]⟩⟩ host1 0 0).2 (by decide)⟩

end Dcosctl
